import Mathlib

/-!
Verification development for the c4_modelizer repository.

The embedding covers two parts of the code base:

* the Express/pg server (`src/unnamed/part_002`, exported as `createApp`):
  the `POST /api/projects` handler and the `POST /api/restore` handler,
  modelled as pure functions over an explicit database value, with SQL
  transaction semantics made explicit (`TxState`);

* the active-selection and synchronization controller
  (`src/src/contexts/ProjectContext.tsx`): its state (listings, active ids,
  save status, debounce timer, hydration flag, load token, the shared
  diagram store) is a record `CtrlState`, and each callback of the React
  component becomes a state transformer.  Asynchronous remote calls are
  made explicit: the transformer receives the outcome of the awaited call
  as an argument, and every issued request is appended to a `trace` field,
  so ordering claims become claims about the trace.
-/

namespace C4M

/-- JavaScript runtime values, as far as the handlers inspect them: the
server reads dynamically-typed request fields (`req.body.name` etc.) and
branches on truthiness and `typeof`. -/
inductive JsVal where
  | vnull
  | vbool (b : Bool)
  | vnum (n : Int)
  | vstr (s : String)
deriving DecidableEq, Repr

/-- JavaScript truthiness for the values of `JsVal`: `null`, `false`, `0`
and the empty string are falsy. -/
def JsVal.truthy : JsVal → Bool
  | .vnull => false
  | .vbool b => b
  | .vnum n => n != 0
  | .vstr s => s != ""

/-- Tests `typeof v === "string"`. -/
def JsVal.isString : JsVal → Bool
  | .vstr _ => true
  | _ => false

/-- The `viewLevel` field of a flat C4 model. -/
inductive ViewLevel where
  | system
  | container
  | component
  | code
deriving DecidableEq, Repr

/-- FlatC4Model from the server source (`src/unnamed/part_002`): four flat
element arrays plus the view level and optional active ids.  The element
arrays are `unknown[]` in the source; their entries are opaque JSON values
to every function in scope, so they are embedded as `JsVal` lists. -/
structure FlatC4Model where
  systems : List JsVal
  containers : List JsVal
  components : List JsVal
  codeElements : List JsVal
  viewLevel : ViewLevel
  activeSystemId : Option String := none
  activeContainerId : Option String := none
  activeComponentId : Option String := none
deriving DecidableEq, Repr

/-- createEmptyModel from the source: all four arrays empty, view level
`system` (the client context file defines the identical function). -/
def createEmptyModel : FlatC4Model :=
  { systems := []
    containers := []
    components := []
    codeElements := []
    viewLevel := .system }

/-- JavaScript nullish coalescing `a ?? b` on an optional dynamic value:
`b` is chosen when `a` is `undefined` (`none`) or `null`. -/
def jsCoalesce (a b : Option JsVal) : Option JsVal :=
  match a with
  | none => b
  | some .vnull => b
  | some v => some v

/-- JavaScript `a ?? null` for an optional dynamic value. -/
def jsOrNull (a : Option JsVal) : JsVal :=
  match a with
  | none => .vnull
  | some .vnull => .vnull
  | some v => v

/-- JavaScript `String.prototype.trim`: removes leading and trailing
whitespace (written structurally so that it computes by reduction). -/
def trimJs (s : String) : String :=
  String.mk (((s.data.dropWhile Char.isWhitespace).reverse.dropWhile
    Char.isWhitespace).reverse)

namespace Srv

/-- Longest digit prefix of a character list. -/
def digitsPrefix : List Char → List Char
  | [] => []
  | c :: cs => if c.isDigit then c :: digitsPrefix cs else []

/-- Numeric value of a digit list. -/
def digitsVal (ds : List Char) : Nat :=
  ds.foldl (fun a c => 10 * a + (c.toNat - Char.toNat '0')) 0

/-- JavaScript `Number.parseInt(s, 10)`: skip leading whitespace, read an
optional sign and the longest digit prefix; `none` models `NaN`. -/
def parseIntJs (s : String) : Option Int :=
  let cs := (trimJs s).toList
  let signAndRest : Bool × List Char :=
    match cs with
    | '-' :: rest => (true, rest)
    | '+' :: rest => (false, rest)
    | _ => (false, cs)
  let ds := digitsPrefix signAndRest.2
  if ds.isEmpty then none
  else if signAndRest.1 then some (-(digitsVal ds : Int))
  else some ((digitsVal ds : Int))

/-- parseCount from the server source: a number is returned as is, a string
goes through `parseInt` with `NaN` collapsed to `0`, anything else is `0`. -/
def parseCount (value : Option JsVal) : Int :=
  match value with
  | some (.vnum n) => n
  | some (.vstr s) =>
      match parseIntJs s with
      | some n => n
      | none => 0
  | _ => 0

/-- ProjectRow: a row of the `projects` table as the pg driver returns it
(snake_case columns, with the aggregate `model_count` only present on the
listing query). -/
structure ProjectRow where
  id : String
  name : String
  description : JsVal
  created_at : String
  updated_at : String
  model_count : Option JsVal := none
  modelCountAlt : Option JsVal := none
deriving DecidableEq, Repr

/-- ProjectSummary as the server serialises it (camelCase JSON). -/
structure ProjectSummary where
  id : String
  name : String
  description : JsVal
  createdAt : String
  updatedAt : String
  modelCount : Int
deriving DecidableEq, Repr

/-- mapProjectRow from the server source: camelCases a row and derives
`modelCount` via `parseCount(row.model_count ?? row.modelCount)`. -/
def mapProjectRow (row : ProjectRow) : ProjectSummary :=
  { id := row.id
    name := row.name
    description := row.description
    createdAt := row.created_at
    updatedAt := row.updated_at
    modelCount := parseCount (jsCoalesce row.model_count row.modelCountAlt) }

/-- Request body of `POST /api/projects`; absent fields are `none`. -/
structure CreateProjectBody where
  name : Option JsVal := none
  description : Option JsVal := none
deriving DecidableEq, Repr

/-- The validation test `!name || typeof name !== "string"` of the project
and model creation handlers. -/
def nameMissing (name : Option JsVal) : Bool :=
  match name with
  | none => true
  | some v => !v.truthy || !v.isString

/-- Result of the `POST /api/projects` handler: HTTP status, JSON payload
when one is sent, and the resulting `projects` table. -/
structure ProjectsPostResult where
  status : Nat
  payload : Option ProjectSummary
  db : List ProjectRow
deriving DecidableEq, Repr

/-- The `POST /api/projects` handler: rejects a missing/non-string/empty
name with 400 and no insert, otherwise inserts a row with the trimmed name
and `description ?? null` and answers 201 with the mapped row.  The fresh
uuid and the db timestamp are passed in explicitly. -/
def postProjects (db : List ProjectRow) (body : CreateProjectBody)
    (freshId now : String) : ProjectsPostResult :=
  if nameMissing body.name then
    { status := 400, payload := none, db := db }
  else
    let s :=
      match body.name with
      | some (.vstr s) => s
      | _ => ""
    let row : ProjectRow :=
      { id := freshId
        name := trimJs s
        description := jsOrNull body.description
        created_at := now
        updated_at := now }
    { status := 201, payload := some (mapProjectRow row), db := db ++ [row] }

/-- ModelRow: a row of the `models` table. -/
structure ModelRow where
  id : String
  project_id : String
  name : String
  description : JsVal
  model_data : FlatC4Model
  created_at : String
  updated_at : String
deriving DecidableEq, Repr

/-- RestoreProject from the server source: an entry of the `projects`
array of a restore payload. -/
structure RestoreProject where
  id : String
  name : String
  description : Option JsVal := none
  createdAt : Option String := none
  updatedAt : Option String := none
deriving DecidableEq, Repr

/-- RestoreModel from the server source: an entry of the `models` array of
a restore payload. -/
structure RestoreModel where
  id : String
  projectId : String
  name : String
  description : Option JsVal := none
  model : Option FlatC4Model := none
  createdAt : Option String := none
  updatedAt : Option String := none
deriving DecidableEq, Repr

/-- The two tables of the server database. -/
structure Db where
  projects : List ProjectRow
  models : List ModelRow
deriving DecidableEq, Repr

/-- The SQL statements the restore handler issues through its pooled
client. -/
inductive SqlStmt where
  | beginTx
  | commitTx
  | rollbackTx
  | deleteAllModels
  | deleteAllProjects
  | insertProject (row : ProjectRow)
  | insertModel (row : ModelRow)
deriving DecidableEq, Repr

/-- Whether a statement is transaction control rather than data
manipulation. -/
def SqlStmt.isTxCtl : SqlStmt → Bool
  | .beginTx => true
  | .commitTx => true
  | .rollbackTx => true
  | _ => false

/-- Effect of one data statement on a database value. -/
def applyStmt (db : Db) : SqlStmt → Db
  | .deleteAllModels => { db with models := [] }
  | .deleteAllProjects => { db with projects := [] }
  | .insertProject row => { db with projects := db.projects ++ [row] }
  | .insertModel row => { db with models := db.models ++ [row] }
  | _ => db

/-- A SQL session: the committed database plus, inside a transaction, the
uncommitted working copy. -/
structure TxState where
  committed : Db
  scratch : Option Db
deriving DecidableEq, Repr

/-- Executing one statement on a session: `BEGIN` opens a working copy,
`COMMIT` publishes it, `ROLLBACK` discards it, and data statements apply
to the working copy when one is open (else directly to the committed
database, i.e. autocommit). -/
def execStmt (t : TxState) : SqlStmt → TxState
  | .beginTx => { t with scratch := some t.committed }
  | .commitTx =>
      match t.scratch with
      | some db => { committed := db, scratch := none }
      | none => t
  | .rollbackTx => { t with scratch := none }
  | s =>
      match t.scratch with
      | some db => { t with scratch := some (applyStmt db s) }
      | none => { committed := applyStmt t.committed s, scratch := none }

/-- Row inserted for one restore-payload project: `description ?? null`
and timestamps defaulting to the current time. -/
def restoreProjectRow (now : String) (p : RestoreProject) : ProjectRow :=
  { id := p.id
    name := p.name
    description := jsOrNull p.description
    created_at := p.createdAt.getD now
    updated_at := p.updatedAt.getD now }

/-- Row inserted for one restore-payload model: `model ?? createEmptyModel()`
and timestamps defaulting to the current time. -/
def restoreModelRow (now : String) (m : RestoreModel) : ModelRow :=
  { id := m.id
    project_id := m.projectId
    name := m.name
    description := jsOrNull m.description
    model_data := m.model.getD createEmptyModel
    created_at := m.createdAt.getD now
    updated_at := m.updatedAt.getD now }

/-- Body statements of the restore transaction, in source order: delete
all models, delete all projects, then one insert per project and one
insert per model. -/
def restoreStmts (now : String) (ps : List RestoreProject)
    (ms : List RestoreModel) : List SqlStmt :=
  [.deleteAllModels, .deleteAllProjects]
    ++ ps.map (fun p => .insertProject (restoreProjectRow now p))
    ++ ms.map (fun m => .insertModel (restoreModelRow now m))

/-- A request field that must be an array: either an array of decoded
entries, or some other JSON value (`Array.isArray` fails). -/
inductive MaybeArr (α : Type) where
  | arr (xs : List α)
  | notArr (v : JsVal)
deriving DecidableEq, Repr

/-- Request body of `POST /api/restore`. -/
structure RestoreBody where
  projects : MaybeArr RestoreProject
  models : MaybeArr RestoreModel
deriving DecidableEq, Repr

/-- Result of the restore handler: status, the `(projects, models)` counts
of the success payload, the committed database afterwards, and the
statements actually executed on the client. -/
structure RestoreResult where
  status : Nat
  okCounts : Option (Nat × Nat)
  db : Db
  executed : List SqlStmt
deriving DecidableEq, Repr

/-- The `POST /api/restore` handler.  A payload whose `projects` or
`models` is not an array gets 400 untouched.  Otherwise the handler runs
`BEGIN`, the body statements, and `COMMIT`; `failAt = some k` means the
`k`-th body statement raises, in which case the handler runs `ROLLBACK`
and rethrows (surfaced as 500 by the error middleware). -/
def restoreHandler (db : Db) (body : RestoreBody) (failAt : Option Nat)
    (now : String) : RestoreResult :=
  match body.projects, body.models with
  | .arr ps, .arr ms =>
      let stmts := restoreStmts now ps ms
      let t0 := execStmt { committed := db, scratch := none } .beginTx
      let failed :=
        match failAt with
        | some k => decide (k < stmts.length)
        | none => false
      if failed then
        let k := failAt.getD 0
        let t1 := (stmts.take k).foldl execStmt t0
        let t2 := execStmt t1 .rollbackTx
        { status := 500, okCounts := none, db := t2.committed,
          executed := .beginTx :: (stmts.take k ++ [.rollbackTx]) }
      else
        let t1 := stmts.foldl execStmt t0
        let t2 := execStmt t1 .commitTx
        { status := 200, okCounts := some (ps.length, ms.length),
          db := t2.committed,
          executed := .beginTx :: (stmts ++ [.commitTx]) }
  | _, _ => { status := 400, okCounts := none, db := db, executed := [] }

end Srv

namespace Ctrl

/-- ProjectSummary from `src/src/types/projects.ts` (client side). -/
structure ProjectSummary where
  id : String
  name : String
  description : Option String
  createdAt : String
  updatedAt : String
  modelCount : Int
deriving DecidableEq, Repr

/-- ModelSummary from `src/src/types/projects.ts` (client side). -/
structure ModelSummary where
  id : String
  projectId : String
  name : String
  description : Option String
  createdAt : String
  updatedAt : String
  model : Option FlatC4Model := none
deriving DecidableEq, Repr

/-- SaveStatus from the controller source. -/
inductive SaveStatus where
  | idle
  | saving
  | error
deriving DecidableEq, Repr

/-- Requests the controller issues through the remote client, recorded in
order of issue. -/
inductive RemoteCall where
  | fetchProjectsCall
  | fetchModelsCall (projectId : String)
  | fetchModelCall (modelId : String)
  | createProjectCall (name : String)
  | updateProjectCall (projectId : String)
  | deleteProjectCall (projectId : String)
  | createModelCall (projectId : String)
  | updateModelCall (modelId : String) (model : FlatC4Model)
  | deleteModelCall (modelId : String)
deriving DecidableEq, Repr

/-- State of the ProjectProvider component: its React state hooks, its
refs, the shared diagram store it writes through `setModel`, plus the
explicit debounce-timer pool and the trace of issued remote calls.
`pendingTimers` holds the scheduled-but-not-yet-fired timeouts as
`(handle, captured snapshot)` pairs; `saveTimeoutRef` is the source's
`saveTimeoutRef.current`; `nextTimerId` supplies fresh timeout handles. -/
structure CtrlState where
  projects : List ProjectSummary
  models : List ModelSummary
  activeProjectId : Option String
  activeModelId : Option String
  isLoadingProjects : Bool
  isLoadingModels : Bool
  isLoadingModel : Bool
  saveStatus : SaveStatus
  lastSavedAt : Option String
  error : Option String
  isHydrating : Bool
  pendingTimers : List (Nat × FlatC4Model)
  saveTimeoutRef : Option Nat
  nextTimerId : Nat
  loadToken : Nat
  store : FlatC4Model
  trace : List RemoteCall
deriving DecidableEq, Repr

/-- Outcome of an awaited `updateModel` remote call: success carries the
server timestamp recorded as `lastSavedAt`, failure carries the message. -/
inductive SaveOutcome where
  | ok (now : String)
  | fail (msg : String)
deriving DecidableEq, Repr

/-- Outcome of an awaited `fetchModel` remote call; on success the
`model` field of the returned detail may be absent. -/
inductive FetchModelResult where
  | ok (model : Option FlatC4Model)
  | fail (msg : String)
deriving DecidableEq, Repr

/-- The `clearTimeout` plus ref-reset prologue of `saveCurrentModel`:
cancels the referenced timeout (a no-op when it already fired) and nulls
the ref. -/
def clearTimeoutRef (s : CtrlState) : CtrlState :=
  match s.saveTimeoutRef with
  | some h =>
      { s with pendingTimers := s.pendingTimers.filter (fun t => t.1 != h)
               saveTimeoutRef := none }
  | none => s

/-- saveModelNow from the source: no-op without an active model id, else
clears the error, moves save status to `saving`, issues the
`PUT /api/models/:id` write with the given snapshot, and records the
outcome (`idle` plus timestamp on success, `error` plus message on
failure). -/
def saveModelNow (s : CtrlState) (modelData : FlatC4Model)
    (outcome : SaveOutcome) : CtrlState :=
  match s.activeModelId with
  | none => s
  | some modelId =>
      let s1 := { s with error := none
                         saveStatus := .saving
                         trace := s.trace ++ [RemoteCall.updateModelCall modelId modelData] }
      match outcome with
      | .ok now => { s1 with saveStatus := .idle, lastSavedAt := some now }
      | .fail msg => { s1 with saveStatus := .error, error := some msg }

/-- queueSave from the source: no-op without an active model id, else
cancels the timeout referenced by `saveTimeoutRef` (if any) and schedules
a fresh 600 ms timeout capturing the given snapshot, storing its handle
in the ref. -/
def queueSave (s : CtrlState) (modelData : FlatC4Model) : CtrlState :=
  match s.activeModelId with
  | none => s
  | some _ =>
      let remaining :=
        match s.saveTimeoutRef with
        | some h => s.pendingTimers.filter (fun t => t.1 != h)
        | none => s.pendingTimers
      { s with pendingTimers := remaining ++ [(s.nextTimerId, modelData)]
               saveTimeoutRef := some s.nextTimerId
               nextTimerId := s.nextTimerId + 1 }

/-- A scheduled debounce timeout fires: it leaves the pending pool and
runs `saveModelNow` on its captured snapshot. -/
def fireTimer (s : CtrlState) (h : Nat) (outcome : SaveOutcome) : CtrlState :=
  match s.pendingTimers.find? (fun t => t.1 == h) with
  | none => s
  | some t =>
      saveModelNow
        { s with pendingTimers := s.pendingTimers.filter (fun u => u.1 != h) }
        t.2 outcome

/-- saveCurrentModel from the source: unconditionally cancels the pending
debounce timeout, then, only when a model is active, performs the
immediate write of the current store snapshot. -/
def saveCurrentModel (s : CtrlState) (outcome : SaveOutcome) : CtrlState :=
  let s1 := clearTimeoutRef s
  match s1.activeModelId with
  | none => s1
  | some _ => saveModelNow s1 s1.store outcome

/-- selectProject from the source: no-op when the id is already active,
else awaits `saveCurrentModel`, then installs the new active project id,
clears the active model id, and clears the cached model listing. -/
def selectProject (s : CtrlState) (projectId : Option String)
    (outcome : SaveOutcome) : CtrlState :=
  if projectId = s.activeProjectId then s
  else
    let s1 := saveCurrentModel s outcome
    { s1 with activeProjectId := projectId, activeModelId := none, models := [] }

/-- selectModel from the source: no-op when the id is already active, else
awaits `saveCurrentModel`, then installs the new active model id. -/
def selectModel (s : CtrlState) (modelId : Option String)
    (outcome : SaveOutcome) : CtrlState :=
  if modelId = s.activeModelId then s
  else
    let s1 := saveCurrentModel s outcome
    { s1 with activeModelId := modelId }

/-- setModel on the shared diagram store, together with the zustand
subscription installed while a model is active: the store takes the new
value, and the subscription callback ignores the mutation while the
hydration flag is set, otherwise hands the snapshot to `queueSave`. -/
def setModelStore (s : CtrlState) (m : FlatC4Model) : CtrlState :=
  let s1 := { s with store := m }
  match s1.activeModelId with
  | some _ => if s1.isHydrating then s1 else queueSave s1 m
  | none => s1

/-- A burst of local edits: each edit mutates the store and runs the
subscription callback. -/
def applyBurst (s : CtrlState) (edits : List FlatC4Model) : CtrlState :=
  edits.foldl setModelStore s

/-- First half of loadModel, up to the `await fetchModel`: bumps the load
token, sets the loading and hydration flags, and issues the fetch.
Returns the token the continuation will compare against. -/
def loadModelStart (s : CtrlState) (modelId : String) : CtrlState × Nat :=
  let token := s.loadToken + 1
  ({ s with loadToken := token
            isLoadingModel := true
            isHydrating := true
            trace := s.trace ++ [RemoteCall.fetchModelCall modelId] }, token)

/-- The `finally` block of loadModel: only the still-latest load clears
the hydration and loading flags. -/
def loadModelFinally (s : CtrlState) (token : Nat) : CtrlState :=
  if s.loadToken = token then
    { s with isHydrating := false, isLoadingModel := false }
  else s

/-- Second half of loadModel, after the fetch resolves: a superseded token
returns without touching the store; the latest load writes
`data.model ?? createEmptyModel()` into the store and resets the save
status to `idle`; a fetch error records the message; the `finally` block
runs on every path. -/
def loadModelResolve (s : CtrlState) (token : Nat)
    (result : FetchModelResult) : CtrlState :=
  match result with
  | .ok data =>
      if s.loadToken ≠ token then loadModelFinally s token
      else
        let s1 := setModelStore s (data.getD createEmptyModel)
        loadModelFinally { s1 with saveStatus := .idle } token
  | .fail msg =>
      loadModelFinally { s with error := some msg } token

/-- A load that runs uninterrupted: the resolve step follows the start
step with no other load issued in between. -/
def loadModel (s : CtrlState) (modelId : String)
    (result : FetchModelResult) : CtrlState :=
  let p := loadModelStart s modelId
  loadModelResolve p.1 p.2 result

/-- handleDeleteProject from the source: clears the error, issues the
remote delete, and on success removes the project from the listing; when
the deleted project was active it additionally clears both active ids,
clears the model listing, and resets the store to the empty model.  On
remote failure only the error message is recorded. -/
def handleDeleteProject (s : CtrlState) (projectId : String)
    (remoteOk : Bool) (errMsg : String) : CtrlState :=
  let s0 := { s with error := none }
  if remoteOk then
    let s1 := { s0 with trace := s0.trace ++ [RemoteCall.deleteProjectCall projectId]
                        projects := s0.projects.filter (fun p => p.id != projectId) }
    if s1.activeProjectId = some projectId then
      let s2 := { s1 with activeProjectId := none, activeModelId := none
                          models := [] }
      setModelStore s2 createEmptyModel
    else s1
  else
    { s0 with trace := s0.trace ++ [RemoteCall.deleteProjectCall projectId]
              error := some errMsg }

/-- handleCreateModel from the source: clears the error, issues the remote
create; on success prepends the returned summary to the model listing,
bumps the cached `modelCount` of the target project, and makes the target
project and the new model active. -/
def handleCreateModel (s : CtrlState) (projectId : String)
    (result : Option ModelSummary) (errMsg : String) : CtrlState :=
  let s0 := { s with error := none }
  match result with
  | some m =>
      { s0 with trace := s0.trace ++ [RemoteCall.createModelCall projectId]
                models := m :: s0.models
                projects := s0.projects.map (fun p =>
                  if p.id = projectId then { p with modelCount := p.modelCount + 1 }
                  else p)
                activeProjectId := some projectId
                activeModelId := some m.id }
  | none =>
      { s0 with trace := s0.trace ++ [RemoteCall.createModelCall projectId]
                error := some errMsg }

/-- handleDeleteModel from the source: clears the error, looks up the
deleted model's project id in the cached listing, issues the remote
delete; on success removes the model from the listing, decrements (with a
floor of 0) the cached `modelCount` of that project when the lookup found
a truthy id, and, when the deleted model was active, clears the active
model id and resets the store. -/
def handleDeleteModel (s : CtrlState) (modelId : String)
    (remoteOk : Bool) (errMsg : String) : CtrlState :=
  let s0 := { s with error := none }
  let projectId := (s0.models.find? (fun m => m.id == modelId)).map
    (fun m => m.projectId)
  if remoteOk then
    let s1 := { s0 with trace := s0.trace ++ [RemoteCall.deleteModelCall modelId]
                        models := s0.models.filter (fun m => m.id != modelId) }
    let s2 :=
      match projectId with
      | some pid =>
          if pid != "" then
            { s1 with projects := s1.projects.map (fun p =>
                if p.id = pid then { p with modelCount := max 0 (p.modelCount - 1) }
                else p) }
          else s1
      | none => s1
    if s2.activeModelId = some modelId then
      let s3 := { s2 with activeModelId := none }
      setModelStore s3 createEmptyModel
    else s2
  else
    { s0 with trace := s0.trace ++ [RemoteCall.deleteModelCall modelId]
              error := some errMsg }

/-- The reconciliation effect over the project listing (source lines
365-380): while not loading, an empty listing forces both active ids to
null and resets the store; otherwise a null or stale active project id is
replaced by the first listed project. -/
def reconcileProjects (s : CtrlState) : CtrlState :=
  if s.isLoadingProjects then s
  else
    match s.projects with
    | [] =>
        let s1 := { s with activeProjectId := none, activeModelId := none }
        setModelStore s1 createEmptyModel
    | p0 :: _ =>
        match s.activeProjectId with
        | none => { s with activeProjectId := some p0.id }
        | some pid =>
            match s.projects.find? (fun p => p.id == pid) with
            | none => { s with activeProjectId := some p0.id }
            | some _ => s

/-- The reconciliation effect over the model listing (source lines
392-406): while not loading and with a project active, an empty listing
forces the active model id to null and resets the store; otherwise a null
or stale active model id is replaced by the first listed model. -/
def reconcileModels (s : CtrlState) : CtrlState :=
  if s.isLoadingModels || s.activeProjectId = none then s
  else
    match s.models with
    | [] =>
        let s1 := { s with activeModelId := none }
        setModelStore s1 createEmptyModel
    | m0 :: _ =>
        match s.activeModelId with
        | none => { s with activeModelId := some m0.id }
        | some mid =>
            match s.models.find? (fun m => m.id == mid) with
            | none => { s with activeModelId := some m0.id }
            | some _ => s

/-- Well-formedness of the debounce-timer pool: at most one timeout is
pending, and a pending timeout is the one the ref names, with a handle
below the fresh-handle counter. -/
def timerInv (s : CtrlState) : Prop :=
  s.pendingTimers.length ≤ 1 ∧
    ∀ t ∈ s.pendingTimers, s.saveTimeoutRef = some t.1 ∧ t.1 < s.nextTimerId

/-- Consistency of the cached `modelCount` values: every listed project
counts exactly the cached model summaries that reference it. -/
def modelCountInv (s : CtrlState) : Prop :=
  ∀ p ∈ s.projects,
    p.modelCount = ((s.models.filter (fun m => m.projectId == p.id)).length : Int)

/-- A one-system diagram used as a concrete edit snapshot. -/
def sampleModel : FlatC4Model :=
  { createEmptyModel with systems := [.vstr "sys-1"] }

/-- A second concrete edit snapshot. -/
def sampleModel2 : FlatC4Model :=
  { createEmptyModel with systems := [.vstr "sys-1", .vstr "sys-2"] }

/-- A concrete project listing entry. -/
def sampleProject : ProjectSummary :=
  { id := "p1", name := "Core", description := none
    createdAt := "t0", updatedAt := "t0", modelCount := 1 }

/-- A second concrete project listing entry. -/
def sampleProject2 : ProjectSummary :=
  { id := "p2", name := "Edge", description := none
    createdAt := "t0", updatedAt := "t0", modelCount := 0 }

/-- A concrete model listing entry, belonging to `sampleProject`. -/
def sampleSummary : ModelSummary :=
  { id := "m1", projectId := "p1", name := "System View", description := none
    createdAt := "t0", updatedAt := "t0" }

/-- A second concrete model listing entry, belonging to `sampleProject2`. -/
def sampleSummary2 : ModelSummary :=
  { id := "m2", projectId := "p2", name := "Container View", description := none
    createdAt := "t0", updatedAt := "t0" }

/-- A controller state with no selection and empty caches. -/
def baseState : CtrlState :=
  { projects := [], models := [], activeProjectId := none, activeModelId := none,
    isLoadingProjects := false, isLoadingModels := false, isLoadingModel := false,
    saveStatus := .idle, lastSavedAt := none, error := none, isHydrating := false,
    pendingTimers := [], saveTimeoutRef := none, nextTimerId := 0, loadToken := 0,
    store := createEmptyModel, trace := [] }

/-- A controller state in which project `p1` and model `m1` are active and
a debounce timeout (handle 0, snapshot `sampleModel`) is pending. -/
def busyState : CtrlState :=
  { projects := [sampleProject, sampleProject2], models := [sampleSummary],
    activeProjectId := some "p1", activeModelId := some "m1",
    isLoadingProjects := false, isLoadingModels := false, isLoadingModel := false,
    saveStatus := .idle, lastSavedAt := none, error := none, isHydrating := false,
    pendingTimers := [(0, sampleModel)], saveTimeoutRef := some 0, nextTimerId := 1,
    loadToken := 1, store := sampleModel, trace := [] }

/-- A controller state whose selection has been cleared while a debounce
timeout queued for the previously active model is still pending. -/
def clearedState : CtrlState :=
  { baseState with pendingTimers := [(0, sampleModel)]
                   saveTimeoutRef := some 0
                   nextTimerId := 1 }

end Ctrl

namespace Srv

/-- A concrete restore-payload project entry. -/
def sampleRestoreProject : RestoreProject :=
  { id := "rp1", name := "Core" }

/-- A concrete restore-payload model entry. -/
def sampleRestoreModel : RestoreModel :=
  { id := "rm1", projectId := "rp1", name := "System View" }

/-- A concrete pre-restore database holding one project row. -/
def sampleDb : Db :=
  { projects := [{ id := "old1", name := "Old", description := .vnull,
                   created_at := "t", updated_at := "t" }]
    models := [] }

/-- A well-formed restore body: one project, one model. -/
def restoreBodyOk : RestoreBody :=
  { projects := .arr [sampleRestoreProject], models := .arr [sampleRestoreModel] }

/-- A malformed restore body: `projects` is a number, not an array. -/
def restoreBodyBad : RestoreBody :=
  { projects := .notArr (.vnum 3), models := .arr [] }

end Srv

namespace Ctrl

theorem setModelStore_store (s : CtrlState) (m : FlatC4Model) :
    (setModelStore s m).store = m := by
  unfold setModelStore queueSave
  rcases h : s.activeModelId with _ | mid
  · simp [h]
  · simp only [h]
    split <;> rfl

theorem setModelStore_loadToken (s : CtrlState) (m : FlatC4Model) :
    (setModelStore s m).loadToken = s.loadToken := by
  unfold setModelStore queueSave
  rcases h : s.activeModelId with _ | mid
  · simp [h]
  · simp only [h]
    split <;> rfl

/-- C2: when a load of model A is followed by a load of model B before A's
fetch resolves, only B's fetched model reaches the shared diagram store,
in both resolution orders; A's resolve step leaves the store untouched. -/
theorem C2_token_supersession (s : CtrlState) (midA midB : String)
    (dA dB : Option FlatC4Model) :
    (loadModelResolve
        (loadModelResolve (loadModelStart (loadModelStart s midA).1 midB).1
          (loadModelStart s midA).2 (.ok dA))
        (loadModelStart (loadModelStart s midA).1 midB).2 (.ok dB)).store
      = dB.getD createEmptyModel ∧
    (loadModelResolve
        (loadModelResolve (loadModelStart (loadModelStart s midA).1 midB).1
          (loadModelStart (loadModelStart s midA).1 midB).2 (.ok dB))
        (loadModelStart s midA).2 (.ok dA)).store
      = dB.getD createEmptyModel := by
  have hne : s.loadToken + 1 + 1 ≠ s.loadToken + 1 := by omega
  refine ⟨?_, ?_⟩ <;>
    simp [loadModelStart, loadModelResolve, loadModelFinally, hne,
      setModelStore_store, setModelStore_loadToken]

theorem setModelStore_hydrating (s : CtrlState) (m : FlatC4Model)
    (h : s.isHydrating = true) : setModelStore s m = { s with store := m } := by
  unfold setModelStore
  rcases ha : s.activeModelId with _ | mid <;> simp [ha, h]

theorem setModelStore_inactive (s : CtrlState) (m : FlatC4Model)
    (h : s.activeModelId = none) : setModelStore s m = { s with store := m } := by
  unfold setModelStore
  simp [h]

theorem loadModel_ok (s : CtrlState) (mid : String) (d : Option FlatC4Model) :
    (loadModel s mid (.ok d)).saveStatus = .idle ∧
    (loadModel s mid (.ok d)).trace = s.trace ++ [RemoteCall.fetchModelCall mid] ∧
    (loadModel s mid (.ok d)).pendingTimers = s.pendingTimers ∧
    (loadModel s mid (.ok d)).isHydrating = false ∧
    (loadModel s mid (.ok d)).store = d.getD createEmptyModel := by
  unfold loadModel loadModelStart loadModelResolve loadModelFinally
  simp [setModelStore_hydrating]

/-- C3: a completed, uncontended `selectModel` load never schedules a save:
the new id becomes active, the load issues exactly the model fetch (no
update-model write), leaves the timer pool as the flush left it, and ends
with save status `idle` and the fetched model in the store. -/
theorem C3_no_spurious_save (s : CtrlState) (mid : String) (d : Option FlatC4Model)
    (outcome : SaveOutcome) (hne : some mid ≠ s.activeModelId) :
    (selectModel s (some mid) outcome).activeModelId = some mid ∧
    (loadModel (selectModel s (some mid) outcome) mid (.ok d)).saveStatus = .idle ∧
    (loadModel (selectModel s (some mid) outcome) mid (.ok d)).trace
      = (selectModel s (some mid) outcome).trace ++ [RemoteCall.fetchModelCall mid] ∧
    (loadModel (selectModel s (some mid) outcome) mid (.ok d)).pendingTimers
      = (selectModel s (some mid) outcome).pendingTimers ∧
    (loadModel (selectModel s (some mid) outcome) mid (.ok d)).store
      = d.getD createEmptyModel := by
  have hsel : (selectModel s (some mid) outcome).activeModelId = some mid := by
    unfold selectModel
    rw [if_neg hne]
  have hload := loadModel_ok (selectModel s (some mid) outcome) mid d
  exact ⟨hsel, hload.1, hload.2.1, hload.2.2.1, hload.2.2.2.2⟩

/-- C3 witness at a concrete state. -/
theorem C3_no_spurious_save_witness :
    (selectModel baseState (some "m1") (.ok "t1")).activeModelId = some "m1" ∧
    (loadModel (selectModel baseState (some "m1") (.ok "t1")) "m1"
        (.ok (some sampleModel))).saveStatus = .idle ∧
    (loadModel (selectModel baseState (some "m1") (.ok "t1")) "m1"
        (.ok (some sampleModel))).trace
      = (selectModel baseState (some "m1") (.ok "t1")).trace
          ++ [RemoteCall.fetchModelCall "m1"] ∧
    (loadModel (selectModel baseState (some "m1") (.ok "t1")) "m1"
        (.ok (some sampleModel))).pendingTimers
      = (selectModel baseState (some "m1") (.ok "t1")).pendingTimers ∧
    (loadModel (selectModel baseState (some "m1") (.ok "t1")) "m1"
        (.ok (some sampleModel))).store = (some sampleModel).getD createEmptyModel :=
  C3_no_spurious_save baseState "m1" (some sampleModel) (.ok "t1") (by decide)

/-- C10: calling `saveCurrentModel` with no active model issues no remote
write and leaves save status, last-saved timestamp and error untouched,
yet still cancels the pending debounce timeout (so, the timer pool being
well formed, nothing is left that could fire later). -/
theorem C10_flush_without_selection (s : CtrlState) (outcome : SaveOutcome)
    (h : s.activeModelId = none) :
    (saveCurrentModel s outcome).trace = s.trace ∧
    (saveCurrentModel s outcome).saveStatus = s.saveStatus ∧
    (saveCurrentModel s outcome).lastSavedAt = s.lastSavedAt ∧
    (saveCurrentModel s outcome).error = s.error ∧
    (saveCurrentModel s outcome).saveTimeoutRef = none ∧
    (timerInv s → (saveCurrentModel s outcome).pendingTimers = []) := by
  unfold saveCurrentModel clearTimeoutRef
  rcases href : s.saveTimeoutRef with _ | hdl
  · refine ⟨by simp [h], by simp [h], by simp [h], by simp [h], by simp [h, href], ?_⟩
    intro hinv
    simp only [h]
    exact List.eq_nil_iff_forall_not_mem.2 fun t ht => by
      have := (hinv.2 t ht).1
      rw [href] at this
      exact Option.noConfusion this
  · refine ⟨by simp [h], by simp [h], by simp [h], by simp [h], by simp [h], ?_⟩
    intro hinv
    simp only [h]
    show List.filter (fun t => t.1 != hdl) s.pendingTimers = []
    refine List.filter_eq_nil_iff.2 fun t ht => ?_
    have := (hinv.2 t ht).1
    rw [href] at this
    have h1 : t.1 = hdl := by
      injection this with h2
      exact h2.symm
    simp [h1]

/-- C10 witness at a concrete state with a stale pending timeout. -/
theorem C10_flush_without_selection_witness :
    (saveCurrentModel clearedState (.ok "t9")).trace = clearedState.trace ∧
    (saveCurrentModel clearedState (.ok "t9")).saveStatus = clearedState.saveStatus ∧
    (saveCurrentModel clearedState (.ok "t9")).lastSavedAt = clearedState.lastSavedAt ∧
    (saveCurrentModel clearedState (.ok "t9")).error = clearedState.error ∧
    (saveCurrentModel clearedState (.ok "t9")).saveTimeoutRef = none ∧
    (timerInv clearedState → (saveCurrentModel clearedState (.ok "t9")).pendingTimers = []) :=
  C10_flush_without_selection clearedState (.ok "t9") (by decide)

/-- C6: a remotely successful `deleteProject` of the active project clears
both active ids, clears the model listing, and resets the store, besides
removing the project from the listing; deleting a non-active project only
filters the listing and leaves selection, model listing and store
untouched. -/
theorem C6_delete_project_frame (s : CtrlState) (pid : String) :
    (s.activeProjectId = some pid →
      (handleDeleteProject s pid true "").projects
          = s.projects.filter (fun p => p.id != pid) ∧
      (handleDeleteProject s pid true "").activeProjectId = none ∧
      (handleDeleteProject s pid true "").activeModelId = none ∧
      (handleDeleteProject s pid true "").models = [] ∧
      (handleDeleteProject s pid true "").store = createEmptyModel) ∧
    (s.activeProjectId ≠ some pid →
      (handleDeleteProject s pid true "").projects
          = s.projects.filter (fun p => p.id != pid) ∧
      (handleDeleteProject s pid true "").activeProjectId = s.activeProjectId ∧
      (handleDeleteProject s pid true "").activeModelId = s.activeModelId ∧
      (handleDeleteProject s pid true "").models = s.models ∧
      (handleDeleteProject s pid true "").store = s.store) := by
  constructor
  · intro hact
    unfold handleDeleteProject
    rw [if_pos rfl, if_pos (by simpa using hact)]
    rw [setModelStore_inactive _ _ rfl]
    simp
  · intro hact
    unfold handleDeleteProject
    rw [if_pos rfl, if_neg (by simpa using hact)]
    simp

/-- C6 witness: deleting the active project `p1` and the non-active
project `p2` from the same concrete state. -/
theorem C6_delete_project_frame_witness :
    ((handleDeleteProject busyState "p1" true "").projects
        = busyState.projects.filter (fun p => p.id != "p1") ∧
      (handleDeleteProject busyState "p1" true "").activeProjectId = none ∧
      (handleDeleteProject busyState "p1" true "").activeModelId = none ∧
      (handleDeleteProject busyState "p1" true "").models = [] ∧
      (handleDeleteProject busyState "p1" true "").store = createEmptyModel) ∧
    ((handleDeleteProject busyState "p2" true "").projects
        = busyState.projects.filter (fun p => p.id != "p2") ∧
      (handleDeleteProject busyState "p2" true "").activeProjectId
        = busyState.activeProjectId ∧
      (handleDeleteProject busyState "p2" true "").activeModelId
        = busyState.activeModelId ∧
      (handleDeleteProject busyState "p2" true "").models = busyState.models ∧
      (handleDeleteProject busyState "p2" true "").store = busyState.store) :=
  ⟨(C6_delete_project_frame busyState "p1").1 (by decide),
   (C6_delete_project_frame busyState "p2").2 (by decide)⟩

theorem clearTimeoutRef_frame (s : CtrlState) :
    (clearTimeoutRef s).trace = s.trace ∧ (clearTimeoutRef s).store = s.store ∧
    (clearTimeoutRef s).activeProjectId = s.activeProjectId ∧
    (clearTimeoutRef s).activeModelId = s.activeModelId := by
  unfold clearTimeoutRef
  rcases s.saveTimeoutRef <;> simp

theorem clearTimeoutRef_pending (s : CtrlState) (hinv : timerInv s) :
    (clearTimeoutRef s).pendingTimers = [] := by
  unfold clearTimeoutRef
  rcases href : s.saveTimeoutRef with _ | hdl
  · exact List.eq_nil_iff_forall_not_mem.2 fun t ht => by
      have := (hinv.2 t ht).1
      rw [href] at this
      exact Option.noConfusion this
  · show List.filter _ s.pendingTimers = []
    refine List.filter_eq_nil_iff.2 fun t ht => ?_
    have := (hinv.2 t ht).1
    rw [href] at this
    injection this with h2
    simp [h2.symm]

theorem saveModelNow_pendingTimers (s : CtrlState) (d : FlatC4Model)
    (outcome : SaveOutcome) :
    (saveModelNow s d outcome).pendingTimers = s.pendingTimers := by
  unfold saveModelNow
  rcases s.activeModelId <;> rcases outcome <;> simp

theorem saveCurrentModel_active (s : CtrlState) (mid : String) (now : String)
    (hact : s.activeModelId = some mid) (hinv : timerInv s) :
    (saveCurrentModel s (.ok now)).trace
      = s.trace ++ [RemoteCall.updateModelCall mid s.store] ∧
    (saveCurrentModel s (.ok now)).pendingTimers = [] ∧
    (saveCurrentModel s (.ok now)).activeProjectId = s.activeProjectId ∧
    (saveCurrentModel s (.ok now)).activeModelId = s.activeModelId := by
  have hfr := clearTimeoutRef_frame s
  have hpd := clearTimeoutRef_pending s hinv
  have hact' : (clearTimeoutRef s).activeModelId = some mid := hfr.2.2.2.trans hact
  simp only [saveCurrentModel]
  rw [hact']
  unfold saveModelNow
  rw [hact']
  simp [hfr.1, hfr.2.1, hfr.2.2.1, hfr.2.2.2, hpd, hact]

theorem handleDeleteProject_trace (s : CtrlState) (pid : String) :
    (handleDeleteProject s pid true "").trace
      = s.trace ++ [RemoteCall.deleteProjectCall pid] := by
  simp only [handleDeleteProject]
  rw [if_pos trivial]
  split
  · rw [setModelStore_inactive _ _ rfl]
  · rfl

theorem handleDeleteModel_trace (s : CtrlState) (mid : String) :
    (handleDeleteModel s mid true "").trace
      = s.trace ++ [RemoteCall.deleteModelCall mid] := by
  simp only [handleDeleteModel]
  rw [if_pos trivial]
  split <;> try split
  all_goals try split
  all_goals first
    | rw [setModelStore_inactive _ _ rfl]
    | rfl

/-- C1 counterexample: in a concrete state with a pending debounced save
for the active model `m1`, a destructive delete of project `p2` and a
destructive delete of model `m1` each issue only the remote delete — the
trace contains no update-model flush write before the delete, and the
pending timeout is not flushed — refuting the part of the claim that says
every destructive delete first performs and awaits the flush. -/
theorem C1_counterexample :
    busyState.pendingTimers = [(0, sampleModel)] ∧
    (handleDeleteProject busyState "p2" true "").trace
      = [RemoteCall.deleteProjectCall "p2"] ∧
    (handleDeleteProject busyState "p2" true "").pendingTimers
      = [(0, sampleModel)] ∧
    (handleDeleteModel busyState "m1" true "").trace
      = [RemoteCall.deleteModelCall "m1"] := by
  refine ⟨rfl, ?_, ?_, ?_⟩
  · rw [handleDeleteProject_trace]
    simp [busyState]
  · decide
  · rw [handleDeleteModel_trace]
    simp [busyState]

/-- C1 amended: `selectProject` and `selectModel` with a new id perform
and await the flush write for the previously active model before the
active ids change (the write precedes the id change in the trace and the
timer pool is emptied); destructive deletes of a project or model do not
flush — they issue only the remote delete. -/
theorem C1_amended (s : CtrlState) (mid now pid2 mid2 : String)
    (newPid newMid : Option String)
    (hact : s.activeModelId = some mid) (hinv : timerInv s)
    (hpne : newPid ≠ s.activeProjectId) (hmne : newMid ≠ s.activeModelId) :
    ((selectProject s newPid (.ok now)).trace
        = s.trace ++ [RemoteCall.updateModelCall mid s.store] ∧
      (selectProject s newPid (.ok now)).activeProjectId = newPid ∧
      (selectProject s newPid (.ok now)).pendingTimers = []) ∧
    ((selectModel s newMid (.ok now)).trace
        = s.trace ++ [RemoteCall.updateModelCall mid s.store] ∧
      (selectModel s newMid (.ok now)).activeModelId = newMid ∧
      (selectModel s newMid (.ok now)).pendingTimers = []) ∧
    (handleDeleteProject s pid2 true "").trace
      = s.trace ++ [RemoteCall.deleteProjectCall pid2] ∧
    (handleDeleteModel s mid2 true "").trace
      = s.trace ++ [RemoteCall.deleteModelCall mid2] := by
  have hsave := saveCurrentModel_active s mid now hact hinv
  refine ⟨?_, ?_, handleDeleteProject_trace s pid2, handleDeleteModel_trace s mid2⟩
  · unfold selectProject
    rw [if_neg hpne]
    exact ⟨hsave.1, rfl, hsave.2.1⟩
  · unfold selectModel
    rw [if_neg hmne]
    exact ⟨hsave.1, rfl, hsave.2.1⟩

/-- C1 amended, witness at the concrete pending-save state. -/
theorem C1_amended_witness :
    ((selectProject busyState (some "p2") (.ok "t1")).trace
        = busyState.trace ++ [RemoteCall.updateModelCall "m1" busyState.store] ∧
      (selectProject busyState (some "p2") (.ok "t1")).activeProjectId = some "p2" ∧
      (selectProject busyState (some "p2") (.ok "t1")).pendingTimers = []) ∧
    ((selectModel busyState (some "m2") (.ok "t1")).trace
        = busyState.trace ++ [RemoteCall.updateModelCall "m1" busyState.store] ∧
      (selectModel busyState (some "m2") (.ok "t1")).activeModelId = some "m2" ∧
      (selectModel busyState (some "m2") (.ok "t1")).pendingTimers = []) ∧
    (handleDeleteProject busyState "p2" true "").trace
      = busyState.trace ++ [RemoteCall.deleteProjectCall "p2"] ∧
    (handleDeleteModel busyState "m1" true "").trace
      = busyState.trace ++ [RemoteCall.deleteModelCall "m1"] :=
  C1_amended busyState "m1" "t1" "p2" "m1" (some "p2") (some "m2") rfl
    (by unfold timerInv; decide) (by decide) (by decide)

theorem pending_cleared (s : CtrlState) (hinv : timerInv s) :
    (match s.saveTimeoutRef with
      | some h => s.pendingTimers.filter (fun t => t.1 != h)
      | none => s.pendingTimers) = [] := by
  rcases href : s.saveTimeoutRef with _ | hdl
  · exact List.eq_nil_iff_forall_not_mem.2 fun t ht => by
      have := (hinv.2 t ht).1
      rw [href] at this
      exact Option.noConfusion this
  · refine List.filter_eq_nil_iff.2 fun t ht => ?_
    have := (hinv.2 t ht).1
    rw [href] at this
    injection this with h2
    simp [h2.symm]

theorem setModelStore_edit (s : CtrlState) (mid : String) (m : FlatC4Model)
    (hact : s.activeModelId = some mid) (hhyd : s.isHydrating = false)
    (hinv : timerInv s) :
    setModelStore s m
      = { s with store := m
                 pendingTimers := [(s.nextTimerId, m)]
                 saveTimeoutRef := some s.nextTimerId
                 nextTimerId := s.nextTimerId + 1 } := by
  have hrem := pending_cleared s hinv
  obtain ⟨pr, mo, apid, amid, lp, lm, lmod, stt, ls, er, hy, pt, ref, nid, tok, sto, tr⟩ := s
  simp only at hact hhyd hrem
  subst hact hhyd
  unfold setModelStore queueSave
  simp only []
  simp [hrem]

theorem applyBurst_props : ∀ (edits : List FlatC4Model) (s : CtrlState) (mid : String),
    s.activeModelId = some mid → s.isHydrating = false → timerInv s →
    timerInv (applyBurst s edits) ∧
    (applyBurst s edits).activeModelId = some mid ∧
    (applyBurst s edits).isHydrating = false ∧
    (applyBurst s edits).trace = s.trace ∧
    (∀ e, edits.getLast? = some e →
      ∃ hdl, (applyBurst s edits).pendingTimers = [(hdl, e)]) := by
  intro edits
  induction edits with
  | nil =>
      intro s mid hact hhyd hinv
      exact ⟨hinv, hact, hhyd, rfl, by simp⟩
  | cons e rest ih =>
      intro s mid hact hhyd hinv
      have hstep := setModelStore_edit s mid e hact hhyd hinv
      have hact1 : (setModelStore s e).activeModelId = some mid := by
        rw [hstep]; exact hact
      have hhyd1 : (setModelStore s e).isHydrating = false := by
        rw [hstep]; exact hhyd
      have hinv1 : timerInv (setModelStore s e) := by
        rw [hstep]
        refine ⟨by simp, ?_⟩
        intro t ht
        simp only [List.mem_singleton] at ht
        subst ht
        exact ⟨rfl, Nat.lt_succ_self _⟩
      have htr1 : (setModelStore s e).trace = s.trace := by
        rw [hstep]
      obtain ⟨ih1, ih2, ih3, ih4, ih5⟩ := ih (setModelStore s e) mid hact1 hhyd1 hinv1
      refine ⟨ih1, ih2, ih3, ih4.trans htr1, ?_⟩
      intro x hx
      rcases rest with _ | ⟨r, rs⟩
      · simp only [List.getLast?_singleton, Option.some.injEq] at hx
        subst hx
        refine ⟨s.nextTimerId, ?_⟩
        show (setModelStore s e).pendingTimers = [(s.nextTimerId, e)]
        rw [hstep]
      · have hx' : (r :: rs).getLast? = some x := by
          simpa using hx
        exact ih5 x hx'

/-- C4: during a burst of qualifying store edits while a model is active,
at most one debounce timeout is ever pending (the well-formedness
invariant is preserved), no write is issued inside the burst, the pending
timeout carries the last edit's snapshot, and when it fires exactly one
update-model write is issued carrying that last snapshot — earlier
snapshots of the window are never written. -/
theorem C4_debounce_coalescing (s : CtrlState) (mid : String)
    (edits : List FlatC4Model)
    (hact : s.activeModelId = some mid) (hhyd : s.isHydrating = false)
    (hinv : timerInv s) :
    timerInv (applyBurst s edits) ∧
    (applyBurst s edits).trace = s.trace ∧
    ∀ e, edits.getLast? = some e →
      ∃ hdl, (applyBurst s edits).pendingTimers = [(hdl, e)] ∧
        ∀ now, (fireTimer (applyBurst s edits) hdl (.ok now)).trace
            = s.trace ++ [RemoteCall.updateModelCall mid e] ∧
          (fireTimer (applyBurst s edits) hdl (.ok now)).pendingTimers = [] := by
  obtain ⟨h1, h2, h3, h4, h5⟩ := applyBurst_props edits s mid hact hhyd hinv
  refine ⟨h1, h4, ?_⟩
  intro e he
  obtain ⟨hdl, hpend⟩ := h5 e he
  refine ⟨hdl, hpend, ?_⟩
  intro now
  unfold fireTimer
  rw [hpend]
  simp only [List.find?_singleton, beq_self_eq_true, if_pos, List.filter_singleton,
    bne_self_eq_false]
  unfold saveModelNow
  rw [show ({ applyBurst s edits with
        pendingTimers := [] } : CtrlState).activeModelId = some mid from h2]
  simp [h4]

/-- C4 witness: a two-edit burst at the concrete active state; the pending
timeout carries the second snapshot and firing writes exactly it. -/
theorem C4_debounce_coalescing_witness :
    timerInv (applyBurst busyState [sampleModel2, sampleModel]) ∧
    (applyBurst busyState [sampleModel2, sampleModel]).trace = busyState.trace ∧
    ∀ e, ([sampleModel2, sampleModel] : List FlatC4Model).getLast? = some e →
      ∃ hdl, (applyBurst busyState [sampleModel2, sampleModel]).pendingTimers
          = [(hdl, e)] ∧
        ∀ now,
          (fireTimer (applyBurst busyState [sampleModel2, sampleModel]) hdl
              (.ok now)).trace
            = busyState.trace ++ [RemoteCall.updateModelCall "m1" e] ∧
          (fireTimer (applyBurst busyState [sampleModel2, sampleModel]) hdl
              (.ok now)).pendingTimers = [] :=
  C4_debounce_coalescing busyState "m1" [sampleModel2, sampleModel] rfl rfl
    (by unfold timerInv; decide)

/-- C5: after the reconciliation effects run on a settled state, an empty
project listing forces both active ids to null and resets the store;
otherwise the resulting active project id names a listed project, falling
back to the first listed project when none was active or the previous id
is absent; and symmetrically for the model listing while a project is
active. -/
theorem C5_reconciliation (s : CtrlState)
    (hlp : s.isLoadingProjects = false) (hlm : s.isLoadingModels = false) :
    (s.projects = [] →
      (reconcileProjects s).activeProjectId = none ∧
      (reconcileProjects s).activeModelId = none ∧
      (reconcileProjects s).store = createEmptyModel) ∧
    (∀ p0 rest, s.projects = p0 :: rest →
      ∃ pid, (reconcileProjects s).activeProjectId = some pid ∧
        pid ∈ s.projects.map (fun p => p.id) ∧
        (s.activeProjectId = none → pid = p0.id) ∧
        (∀ q, s.activeProjectId = some q →
          s.projects.find? (fun p => p.id == q) = none → pid = p0.id)) ∧
    (s.activeProjectId ≠ none → s.models = [] →
      (reconcileModels s).activeModelId = none ∧
      (reconcileModels s).store = createEmptyModel) ∧
    (s.activeProjectId ≠ none → ∀ m0 rest, s.models = m0 :: rest →
      ∃ mid, (reconcileModels s).activeModelId = some mid ∧
        mid ∈ s.models.map (fun m => m.id) ∧
        (s.activeModelId = none → mid = m0.id) ∧
        (∀ q, s.activeModelId = some q →
          s.models.find? (fun m => m.id == q) = none → mid = m0.id)) := by
  refine ⟨?_, ?_, ?_, ?_⟩
  · intro hp
    unfold reconcileProjects
    rw [hlp, hp]
    simp only [Bool.false_eq_true, if_false]
    rw [setModelStore_inactive _ _ rfl]
    exact ⟨rfl, rfl, rfl⟩
  · intro p0 rest hp
    unfold reconcileProjects
    rw [hlp, hp]
    simp only [Bool.false_eq_true, if_false]
    rcases ha : s.activeProjectId with _ | q
    · try dsimp only
      exact ⟨p0.id, rfl, by simp, fun _ => rfl, fun _ hq _ => Option.noConfusion hq⟩
    · try dsimp only
      rcases hf : List.find? (fun p => p.id == q) (p0 :: rest) with _ | p'
      · rw [hf]
        try dsimp only
        exact ⟨p0.id, rfl, by simp, fun h => Option.noConfusion h, fun _ _ _ => rfl⟩
      · rw [hf]
        try dsimp only
        refine ⟨q, ha, ?_, fun h => Option.noConfusion h, ?_⟩
        · have hmem := List.mem_of_find?_eq_some hf
          have hbeq : (p'.id == q) = true := (List.find?_eq_some.1 hf).1
          have hpq : p'.id = q := by simpa using hbeq
          exact List.mem_map.2 ⟨p', hmem, hpq⟩
        · intro q' hq' hnone
          injection hq' with hq2
          subst hq2
          rw [hf] at hnone
          cases hnone
  · intro hap hm
    unfold reconcileModels
    rw [hlm, hm]
    rw [if_neg (by simp [hap])]
    dsimp only
    rw [setModelStore_inactive _ _ rfl]
    exact ⟨rfl, rfl⟩
  · intro hap m0 rest hm
    unfold reconcileModels
    rw [hlm, hm]
    rw [if_neg (by simp [hap])]
    dsimp only
    rcases ha : s.activeModelId with _ | q
    · try dsimp only
      exact ⟨m0.id, rfl, by simp, fun _ => rfl, fun _ hq _ => Option.noConfusion hq⟩
    · try dsimp only
      rcases hf : List.find? (fun m => m.id == q) (m0 :: rest) with _ | m'
      · rw [hf]
        try dsimp only
        exact ⟨m0.id, rfl, by simp, fun h => Option.noConfusion h, fun _ _ _ => rfl⟩
      · rw [hf]
        try dsimp only
        refine ⟨q, ha, ?_, fun h => Option.noConfusion h, ?_⟩
        · have hmem := List.mem_of_find?_eq_some hf
          have hbeq : (m'.id == q) = true := (List.find?_eq_some.1 hf).1
          have hmq : m'.id = q := by simpa using hbeq
          exact List.mem_map.2 ⟨m', hmem, hmq⟩
        · intro q' hq' hnone
          injection hq' with hq2
          subst hq2
          rw [hf] at hnone
          cases hnone

/-- C5 witness at the concrete active state. -/
theorem C5_reconciliation_witness :
    (busyState.projects = [] →
      (reconcileProjects busyState).activeProjectId = none ∧
      (reconcileProjects busyState).activeModelId = none ∧
      (reconcileProjects busyState).store = createEmptyModel) ∧
    (∀ p0 rest, busyState.projects = p0 :: rest →
      ∃ pid, (reconcileProjects busyState).activeProjectId = some pid ∧
        pid ∈ busyState.projects.map (fun p => p.id) ∧
        (busyState.activeProjectId = none → pid = p0.id) ∧
        (∀ q, busyState.activeProjectId = some q →
          busyState.projects.find? (fun p => p.id == q) = none → pid = p0.id)) ∧
    (busyState.activeProjectId ≠ none → busyState.models = [] →
      (reconcileModels busyState).activeModelId = none ∧
      (reconcileModels busyState).store = createEmptyModel) ∧
    (busyState.activeProjectId ≠ none → ∀ m0 rest, busyState.models = m0 :: rest →
      ∃ mid, (reconcileModels busyState).activeModelId = some mid ∧
        mid ∈ busyState.models.map (fun m => m.id) ∧
        (busyState.activeModelId = none → mid = m0.id) ∧
        (∀ q, busyState.activeModelId = some q →
          busyState.models.find? (fun m => m.id == q) = none → mid = m0.id)) :=
  C5_reconciliation busyState rfl rfl

theorem handleDeleteModel_models (s : CtrlState) (mid : String) :
    (handleDeleteModel s mid true "").models
      = s.models.filter (fun x => x.id != mid) := by
  simp only [handleDeleteModel]
  rw [if_pos trivial]
  split <;> try split
  all_goals try split
  all_goals first
    | rw [setModelStore_inactive _ _ rfl]
    | rfl

theorem handleDeleteModel_projects_none (s : CtrlState) (mid : String)
    (hfind : s.models.find? (fun x => x.id == mid) = none) :
    (handleDeleteModel s mid true "").projects = s.projects := by
  simp only [handleDeleteModel]
  rw [if_pos trivial]
  rw [show ({ s with error := none } : CtrlState).models = s.models from rfl, hfind]
  dsimp only [Option.map]
  split
  · rw [setModelStore_inactive _ _ rfl]
  · rfl

theorem handleDeleteModel_projects_found (s : CtrlState) (mid : String)
    (m0 : ModelSummary)
    (hfind : s.models.find? (fun x => x.id == mid) = some m0)
    (hne : m0.projectId ≠ "") :
    (handleDeleteModel s mid true "").projects
      = s.projects.map (fun p =>
          if p.id = m0.projectId then { p with modelCount := max 0 (p.modelCount - 1) }
          else p) := by
  simp only [handleDeleteModel]
  rw [if_pos trivial]
  rw [show ({ s with error := none } : CtrlState).models = s.models from rfl, hfind]
  dsimp only [Option.map]
  have hbne : (m0.projectId != "") = true := by simpa using hne
  rw [if_pos hbne]
  split
  · rw [setModelStore_inactive _ _ rfl]
  · rfl

theorem filter_ne_of_find?_eq_none (mid : String) (l : List ModelSummary)
    (h : l.find? (fun x => x.id == mid) = none) :
    l.filter (fun x => x.id != mid) = l := by
  refine List.filter_eq_self.2 fun x hx => ?_
  have := List.find?_eq_none.1 h x hx
  simpa [bne] using this

theorem count_del_eq (mid q : String) :
    ∀ (l : List ModelSummary) (m0 : ModelSummary),
      (l.map (fun x => x.id)).Nodup →
      l.find? (fun x => x.id == mid) = some m0 →
      q ≠ m0.projectId →
      (l.filter (fun x => x.id != mid)).filter (fun x => x.projectId == q)
        = l.filter (fun x => x.projectId == q) := by
  intro l
  induction l with
  | nil =>
      intro m0 _ hf
      simp at hf
  | cons h t ih =>
      intro m0 hnd hfind hq
      have hpair : (∀ x ∈ t, ¬x.id = h.id) ∧ (t.map (fun x => x.id)).Nodup := by
        simpa using hnd
      by_cases hid : (h.id == mid) = true
      · simp only [List.find?, hid] at hfind
        injection hfind with hm0
        subst hm0
        have hidm : h.id = mid := by simpa using hid
        have ht : t.filter (fun x => x.id != mid) = t := by
          refine List.filter_eq_self.2 fun x hx => ?_
          have : x.id ≠ mid := fun hcon => hpair.1 x hx (hcon.trans hidm.symm)
          simpa [bne] using this
        have hhq : (h.projectId == q) = false := by
          simp only [beq_eq_false_iff_ne]
          exact fun hcon => hq hcon.symm
        simp [List.filter_cons, hidm, hhq, ht]
      · have hid' : (h.id != mid) = true := by simpa [bne] using hid
        simp only [List.find?, hid] at hfind
        have := ih m0 hpair.2 hfind hq
        by_cases hpq : (h.projectId == q) = true <;>
          simp [List.filter_cons, hid', hpq, this]

theorem count_del_dec (mid : String) :
    ∀ (l : List ModelSummary) (m0 : ModelSummary),
      (l.map (fun x => x.id)).Nodup →
      l.find? (fun x => x.id == mid) = some m0 →
      ((l.filter (fun x => x.id != mid)).filter
          (fun x => x.projectId == m0.projectId)).length + 1
        = (l.filter (fun x => x.projectId == m0.projectId)).length := by
  intro l
  induction l with
  | nil =>
      intro m0 _ hf
      simp at hf
  | cons h t ih =>
      intro m0 hnd hfind
      have hpair : (∀ x ∈ t, ¬x.id = h.id) ∧ (t.map (fun x => x.id)).Nodup := by
        simpa using hnd
      by_cases hid : (h.id == mid) = true
      · simp only [List.find?, hid] at hfind
        injection hfind with hm0
        subst hm0
        have hidm : h.id = mid := by simpa using hid
        have ht : t.filter (fun x => x.id != mid) = t := by
          refine List.filter_eq_self.2 fun x hx => ?_
          have : x.id ≠ mid := fun hcon => hpair.1 x hx (hcon.trans hidm.symm)
          simpa [bne] using this
        simp [List.filter_cons, hidm, ht]
      · have hid' : (h.id != mid) = true := by simpa [bne] using hid
        simp only [List.find?, hid] at hfind
        have hdec := ih m0 hpair.2 hfind
        simp only [List.filter_filter] at hdec ⊢
        by_cases hpq : (h.projectId == m0.projectId) = true <;>
          simp [List.filter_cons, hid', hpq] <;> omega

/-- C7: after a successful createModel the cached `modelCount` of every
listed project again equals the number of cached model summaries that
reference it (the target project's count is bumped locally), and after a
successful deleteModel likewise (the deleted model's project is
decremented locally); in both cases the operation issues only its own
remote call — no project re-fetch. -/
theorem C7_modelCount_consistency (s : CtrlState) (pid mid : String)
    (m : ModelSummary)
    (hinv : modelCountInv s)
    (hnodup : (s.models.map (fun x => x.id)).Nodup)
    (hpids : ∀ x ∈ s.models, x.projectId ≠ "")
    (hm : m.projectId = pid) :
    (modelCountInv (handleCreateModel s pid (some m) "") ∧
      (handleCreateModel s pid (some m) "").trace
        = s.trace ++ [RemoteCall.createModelCall pid]) ∧
    (modelCountInv (handleDeleteModel s mid true "") ∧
      (handleDeleteModel s mid true "").trace
        = s.trace ++ [RemoteCall.deleteModelCall mid]) := by
  refine ⟨⟨?_, by simp [handleCreateModel]⟩, ⟨?_, handleDeleteModel_trace s mid⟩⟩
  · intro p' hp'
    have hp2 : p' ∈ s.projects.map (fun p =>
        if p.id = pid then { p with modelCount := p.modelCount + 1 } else p) := by
      simpa [handleCreateModel] using hp'
    have hmodels : (handleCreateModel s pid (some m) "").models = m :: s.models := by
      simp [handleCreateModel]
    rcases List.mem_map.1 hp2 with ⟨p, hpmem, rfl⟩
    rw [hmodels]
    have hbase := hinv p hpmem
    by_cases hc : p.id = pid
    · rw [if_pos hc]
      have hpred : (m.projectId == p.id) = true := by
        simp [hm, hc]
      simp only [List.filter_cons, hpred, if_true, List.length_cons]
      push_cast
      omega
    · rw [if_neg hc]
      have hpred : (m.projectId == p.id) = false := by
        simp only [beq_eq_false_iff_ne, hm]
        exact fun hcon => hc hcon.symm
      simp only [List.filter_cons, hpred, Bool.false_eq_true, if_false]
      exact hbase
  · intro p' hp'
    have hmodels := handleDeleteModel_models s mid
    rcases hfind : s.models.find? (fun x => x.id == mid) with _ | m0
    · have hproj := handleDeleteModel_projects_none s mid hfind
      rw [hproj] at hp'
      rw [hmodels, filter_ne_of_find?_eq_none mid s.models hfind]
      exact hinv p' hp'
    · have hm0mem := List.mem_of_find?_eq_some hfind
      have hne := hpids m0 hm0mem
      have hproj := handleDeleteModel_projects_found s mid m0 hfind hne
      rw [hproj] at hp'
      rcases List.mem_map.1 hp' with ⟨p, hpmem, rfl⟩
      rw [hmodels]
      have hbase := hinv p hpmem
      by_cases hc : p.id = m0.projectId
      · rw [if_pos hc]
        have hdec := count_del_dec mid s.models m0 hnodup hfind
        rw [hc] at hbase
        show max 0 (p.modelCount - 1) = _
        rw [hc]
        push_cast [hbase]
        omega
      · rw [if_neg hc]
        have heq := count_del_eq mid p.id s.models m0 hnodup hfind hc
        rw [heq]
        exact hbase

/-- C7 witness: creating `m2` inside project `p2` and deleting `m1` from
the concrete two-project state. -/
theorem C7_modelCount_consistency_witness :
    (modelCountInv (handleCreateModel busyState "p2" (some sampleSummary2) "") ∧
      (handleCreateModel busyState "p2" (some sampleSummary2) "").trace
        = busyState.trace ++ [RemoteCall.createModelCall "p2"]) ∧
    (modelCountInv (handleDeleteModel busyState "m1" true "") ∧
      (handleDeleteModel busyState "m1" true "").trace
        = busyState.trace ++ [RemoteCall.deleteModelCall "m1"]) :=
  C7_modelCount_consistency busyState "p2" "m1" sampleSummary2
    (by unfold modelCountInv; decide) (by decide) (by decide) (by decide)

end Ctrl

namespace Srv

/-- C8 counterexample: a whitespace-only name is blank but is not
rejected — the handler answers 201 and inserts a row whose name trims to
the empty string, where the claim requires a 400 validation error with no
insert. -/
theorem C8_counterexample :
    (postProjects [] { name := some (.vstr " ") } "proj-1" "t0").status = 201 ∧
    (postProjects [] { name := some (.vstr " ") } "proj-1" "t0").db
      = [{ id := "proj-1", name := "", description := .vnull,
           created_at := "t0", updated_at := "t0" }] := by
  constructor
  · rfl
  · decide

/-- C8 amended: the handler rejects with 400 and inserts nothing exactly
when `!name || typeof name !== "string"` holds — name missing, not a
string, or the empty string (an untrimmed check, so whitespace-only names
pass); otherwise it answers 201 with the created project (modelCount 0,
name trimmed, description defaulting to null) and inserts that row. -/
theorem C8_amended (db : List ProjectRow) (body : CreateProjectBody)
    (freshId now : String) :
    (nameMissing body.name = true →
      (postProjects db body freshId now).status = 400 ∧
      (postProjects db body freshId now).payload = none ∧
      (postProjects db body freshId now).db = db) ∧
    (∀ s, body.name = some (.vstr s) → s ≠ "" →
      (postProjects db body freshId now).status = 201 ∧
      (postProjects db body freshId now).db
        = db ++ [{ id := freshId, name := trimJs s,
                   description := jsOrNull body.description,
                   created_at := now, updated_at := now }] ∧
      (postProjects db body freshId now).payload
        = some { id := freshId, name := trimJs s,
                 description := jsOrNull body.description,
                 createdAt := now, updatedAt := now, modelCount := 0 }) := by
  constructor
  · intro hmiss
    unfold postProjects
    rw [if_pos hmiss]
    exact ⟨rfl, rfl, rfl⟩
  · intro str hname hs
    have hmiss : nameMissing body.name = false := by
      rw [hname]
      simp [nameMissing, JsVal.truthy, JsVal.isString, hs]
    unfold postProjects
    rw [if_neg (by simp [hmiss])]
    rw [hname]
    exact ⟨rfl, rfl, rfl⟩

/-- C8 witness: a missing name is rejected untouched; a padded name is
created with the trimmed name and a null description. -/
theorem C8_amended_witness :
    ((postProjects [] {} "p-1" "t0").status = 400 ∧
      (postProjects [] {} "p-1" "t0").payload = none ∧
      (postProjects [] {} "p-1" "t0").db = []) ∧
    ((postProjects [] { name := some (.vstr "  Core ") } "p-1" "t0").status = 201 ∧
      (postProjects [] { name := some (.vstr "  Core ") } "p-1" "t0").db
        = [] ++ [{ id := "p-1", name := trimJs "  Core ",
                   description := jsOrNull none,
                   created_at := "t0", updated_at := "t0" }] ∧
      (postProjects [] { name := some (.vstr "  Core ") } "p-1" "t0").payload
        = some { id := "p-1", name := trimJs "  Core ",
                 description := jsOrNull none,
                 createdAt := "t0", updatedAt := "t0", modelCount := 0 }) :=
  ⟨(C8_amended [] {} "p-1" "t0").1 rfl,
   (C8_amended [] { name := some (.vstr "  Core ") } "p-1" "t0").2 "  Core " rfl
     (by decide)⟩

theorem execStmt_scratch (l : List SqlStmt) :
    ∀ (t : TxState) (db0 : Db),
      (∀ st ∈ l, st.isTxCtl = false) →
      t.scratch = some db0 →
      l.foldl execStmt t
        = { committed := t.committed, scratch := some (l.foldl applyStmt db0) } := by
  induction l with
  | nil =>
      intro t db0 _ hs
      cases t
      simp only at hs
      simp [hs]
  | cons st rest ih =>
      intro t db0 hctl hs
      have hst := hctl st (by simp)
      have h1 : execStmt t st
          = { committed := t.committed, scratch := some (applyStmt db0 st) } := by
        cases t
        simp only at hs
        subst hs
        cases st <;> simp [SqlStmt.isTxCtl] at hst ⊢ <;> rfl
      rw [List.foldl_cons, h1]
      have := ih { committed := t.committed, scratch := some (applyStmt db0 st) }
        (applyStmt db0 st) (fun x hx => hctl x (by simp [hx])) rfl
      simpa using this

theorem foldl_insertProjects (g : RestoreProject → ProjectRow) :
    ∀ (ps : List RestoreProject) (db : Db),
      (ps.map (fun p => SqlStmt.insertProject (g p))).foldl applyStmt db
        = { db with projects := db.projects ++ ps.map g } := by
  intro ps
  induction ps with
  | nil => intro db; simp
  | cons p rest ih =>
      intro db
      rw [List.map_cons, List.foldl_cons]
      rw [show applyStmt db (SqlStmt.insertProject (g p))
            = { db with projects := db.projects ++ [g p] } from rfl]
      rw [ih]
      simp

theorem foldl_insertModels (g : RestoreModel → ModelRow) :
    ∀ (ms : List RestoreModel) (db : Db),
      (ms.map (fun m => SqlStmt.insertModel (g m))).foldl applyStmt db
        = { db with models := db.models ++ ms.map g } := by
  intro ms
  induction ms with
  | nil => intro db; simp
  | cons m rest ih =>
      intro db
      rw [List.map_cons, List.foldl_cons]
      rw [show applyStmt db (SqlStmt.insertModel (g m))
            = { db with models := db.models ++ [g m] } from rfl]
      rw [ih]
      simp

theorem restore_fold (db : Db) (ps : List RestoreProject) (ms : List RestoreModel)
    (now : String) :
    (restoreStmts now ps ms).foldl applyStmt db
      = { projects := ps.map (restoreProjectRow now)
          models := ms.map (restoreModelRow now) } := by
  unfold restoreStmts
  rw [List.foldl_append, List.foldl_append]
  rw [show ([SqlStmt.deleteAllModels, SqlStmt.deleteAllProjects].foldl applyStmt db)
        = ({ projects := [], models := [] } : Db) from rfl]
  rw [foldl_insertProjects, foldl_insertModels]
  simp

theorem restoreStmts_data (now : String) (ps : List RestoreProject)
    (ms : List RestoreModel) :
    ∀ st ∈ restoreStmts now ps ms, st.isTxCtl = false := by
  intro st hst
  unfold restoreStmts at hst
  rcases List.mem_append.1 hst with h1 | h2
  · rcases List.mem_append.1 h1 with h3 | h4
    · have : st = SqlStmt.deleteAllModels ∨ st = SqlStmt.deleteAllProjects := by
        simpa using h3
      rcases this with rfl | rfl <;> rfl
    · obtain ⟨p, _, rfl⟩ := List.mem_map.1 h4
      rfl
  · obtain ⟨m, _, rfl⟩ := List.mem_map.1 h2
    rfl

/-- C9: a restore payload whose `projects` or `models` is not an array is
rejected with 400 and touches nothing; an array payload runs, inside one
transaction, DELETE FROM models, DELETE FROM projects, one insert per
project and one insert per model, then COMMIT; if any body statement
fails the transaction is rolled back and the previously committed
projects and models are left intact. -/
theorem C9_restore_transaction (db : Db) (body : RestoreBody)
    (failAt : Option Nat) (now : String) :
    (∀ v, body.projects = .notArr v →
      (restoreHandler db body failAt now).status = 400 ∧
      (restoreHandler db body failAt now).db = db ∧
      (restoreHandler db body failAt now).executed = []) ∧
    (∀ w, body.models = .notArr w →
      (restoreHandler db body failAt now).status = 400 ∧
      (restoreHandler db body failAt now).db = db ∧
      (restoreHandler db body failAt now).executed = []) ∧
    (∀ ps ms, body.projects = .arr ps → body.models = .arr ms →
      (failAt = none →
        (restoreHandler db body failAt now).status = 200 ∧
        (restoreHandler db body failAt now).okCounts = some (ps.length, ms.length) ∧
        (restoreHandler db body failAt now).executed
          = SqlStmt.beginTx :: SqlStmt.deleteAllModels :: SqlStmt.deleteAllProjects ::
              (ps.map (fun p => SqlStmt.insertProject (restoreProjectRow now p))
                ++ ms.map (fun m => SqlStmt.insertModel (restoreModelRow now m))
                ++ [SqlStmt.commitTx]) ∧
        (restoreHandler db body failAt now).db
          = { projects := ps.map (restoreProjectRow now)
              models := ms.map (restoreModelRow now) }) ∧
      (∀ k, failAt = some k → k < (restoreStmts now ps ms).length →
        (restoreHandler db body failAt now).status = 500 ∧
        (restoreHandler db body failAt now).db = db ∧
        (restoreHandler db body failAt now).executed
          = SqlStmt.beginTx ::
              ((restoreStmts now ps ms).take k ++ [SqlStmt.rollbackTx]))) := by
  refine ⟨?_, ?_, ?_⟩
  · intro v hv
    unfold restoreHandler
    rw [hv]
    exact ⟨rfl, rfl, rfl⟩
  · intro w hw
    rcases hp : body.projects with ps | v <;>
      (unfold restoreHandler; rw [hp, hw]; exact ⟨rfl, rfl, rfl⟩)
  · intro ps ms hp hm
    have hdata := restoreStmts_data now ps ms
    constructor
    · rintro rfl
      simp only [restoreHandler]
      rw [hp, hm]
      dsimp only
      refine ⟨rfl, rfl, ?_, ?_⟩
      · simp [restoreStmts]
      · rw [show execStmt { committed := db, scratch := none } SqlStmt.beginTx
              = { committed := db, scratch := some db } from rfl]
        rw [execStmt_scratch (restoreStmts now ps ms)
          { committed := db, scratch := some db } db hdata rfl]
        rw [show execStmt
              { committed := db,
                scratch := some ((restoreStmts now ps ms).foldl applyStmt db) }
              SqlStmt.commitTx
            = { committed := (restoreStmts now ps ms).foldl applyStmt db,
                scratch := none } from rfl]
        rw [restore_fold]
        rfl
    · rintro k rfl hklen
      simp only [restoreHandler]
      rw [hp, hm]
      dsimp only
      rw [if_pos (by simpa using hklen)]
      refine ⟨rfl, ?_, rfl⟩
      have hdata' : ∀ st ∈ (restoreStmts now ps ms).take k, st.isTxCtl = false :=
        fun st hst => hdata st (List.take_subset _ _ hst)
      simp only [Option.getD_some]
      rw [show execStmt { committed := db, scratch := none } SqlStmt.beginTx
            = { committed := db, scratch := some db } from rfl]
      rw [execStmt_scratch ((restoreStmts now ps ms).take k)
        { committed := db, scratch := some db } db hdata' rfl]
      rfl

/-- C9 witness: a malformed payload is rejected untouched; the well-formed
one-project one-model payload commits the full statement sequence, and a
failure at the third statement rolls back to the prior database. -/
theorem C9_restore_transaction_witness :
    ((restoreHandler sampleDb restoreBodyBad none "t1").status = 400 ∧
      (restoreHandler sampleDb restoreBodyBad none "t1").db = sampleDb ∧
      (restoreHandler sampleDb restoreBodyBad none "t1").executed = []) ∧
    ((restoreHandler sampleDb restoreBodyOk none "t1").status = 200 ∧
      (restoreHandler sampleDb restoreBodyOk none "t1").okCounts = some (1, 1) ∧
      (restoreHandler sampleDb restoreBodyOk none "t1").executed
        = SqlStmt.beginTx :: SqlStmt.deleteAllModels :: SqlStmt.deleteAllProjects ::
            ([sampleRestoreProject].map
                (fun p => SqlStmt.insertProject (restoreProjectRow "t1" p))
              ++ [sampleRestoreModel].map
                (fun m => SqlStmt.insertModel (restoreModelRow "t1" m))
              ++ [SqlStmt.commitTx]) ∧
      (restoreHandler sampleDb restoreBodyOk none "t1").db
        = { projects := [sampleRestoreProject].map (restoreProjectRow "t1")
            models := [sampleRestoreModel].map (restoreModelRow "t1") }) ∧
    ((restoreHandler sampleDb restoreBodyOk (some 2) "t1").status = 500 ∧
      (restoreHandler sampleDb restoreBodyOk (some 2) "t1").db = sampleDb ∧
      (restoreHandler sampleDb restoreBodyOk (some 2) "t1").executed
        = SqlStmt.beginTx ::
            ((restoreStmts "t1" [sampleRestoreProject] [sampleRestoreModel]).take 2
              ++ [SqlStmt.rollbackTx])) := by
  refine ⟨?_, ?_, ?_⟩
  · exact (C9_restore_transaction sampleDb restoreBodyBad none "t1").1 (.vnum 3) rfl
  · have h := ((C9_restore_transaction sampleDb restoreBodyOk none "t1").2.2
      [sampleRestoreProject] [sampleRestoreModel] rfl rfl).1 rfl
    have hlen : ([sampleRestoreProject] : List RestoreProject).length = 1 := rfl
    simpa using h
  · exact ((C9_restore_transaction sampleDb restoreBodyOk (some 2) "t1").2.2
      [sampleRestoreProject] [sampleRestoreModel] rfl rfl).2 2 rfl (by decide)

end Srv

end C4M
